import Mathlib

/-!
Verification development for the pathfinder C API
(src/c/include/pathfinder/pathfinder.h) against its specification.

The repository ships only the public C header; every function body lives
outside the repository.  Following the header's declared shapes, the data
model is embedded directly from the header (structs, flag constants), and
each operation's behaviour is modelled from the specification, as noted in
its doc comment.  C `float` fields are modelled as rationals, C integer
fields as `Nat`/`Int`.
-/

namespace Pathfinder

/-! ## Geometry types (from `pathfinder.h`, section `geometry`) -/

/-- `struct PFColorF { float r, g, b, a; }` -/
structure PFColorF where
  r : ℚ
  g : ℚ
  b : ℚ
  a : ℚ
deriving DecidableEq, Repr

/-- `struct PFVector2F { float x, y; }` -/
structure PFVector2F where
  x : ℚ
  y : ℚ
deriving DecidableEq, Repr

/-- `struct PFVector2I { int32_t x, y; }` -/
structure PFVector2I where
  x : ℤ
  y : ℤ
deriving DecidableEq, Repr

/-- `struct PFRectF { PFVector2F origin, lower_right; }` -/
structure PFRectF where
  origin : PFVector2F
  lower_right : PFVector2F
deriving DecidableEq, Repr

/-- `struct PFRectI { PFVector2I origin, lower_right; }` -/
structure PFRectI where
  origin : PFVector2I
  lower_right : PFVector2I
deriving DecidableEq, Repr

/-! ## Clear flags (from `pathfinder.h`, section `gpu`) -/

/-- `#define PF_CLEAR_FLAGS_HAS_COLOR 0x1` -/
def PF_CLEAR_FLAGS_HAS_COLOR : Nat := 0x1

/-- `#define PF_CLEAR_FLAGS_HAS_DEPTH 0x2` -/
def PF_CLEAR_FLAGS_HAS_DEPTH : Nat := 0x2

/-- `#define PF_CLEAR_FLAGS_HAS_STENCIL 0x4` -/
def PF_CLEAR_FLAGS_HAS_STENCIL : Nat := 0x4

/-- `#define PF_CLEAR_FLAGS_HAS_RECT 0x8` -/
def PF_CLEAR_FLAGS_HAS_RECT : Nat := 0x8

/-- `struct PFClearParams` from the header: color, depth, stencil, rect,
each gated by a bit of `flags` (`PFClearFlags` is `uint8_t`). -/
structure PFClearParams where
  color : PFColorF
  depth : ℚ
  stencil : Nat
  rect : PFRectI
  flags : Nat
deriving DecidableEq, Repr

/-- Bit test on a flags mask: `flags & bit != 0`, as C code tests the
`PF_CLEAR_FLAGS_*` constants. -/
def hasFlag (flags bit : Nat) : Bool := flags &&& bit != 0

/-! ## Framebuffer model and Clear -/

/-- One framebuffer pixel: a color, a depth value and a stencil value. -/
structure Pixel where
  color : PFColorF
  depth : ℚ
  stencil : Nat
deriving DecidableEq, Repr

/-- A framebuffer: per-pixel color/depth/stencil state. -/
def Framebuffer : Type := PFVector2I → Pixel

/-- Membership of an integer point in a `PFRectI` (origin inclusive,
lower_right exclusive). -/
def inRectI (r : PFRectI) (p : PFVector2I) : Bool :=
  decide (r.origin.x ≤ p.x) && decide (p.x < r.lower_right.x) &&
  decide (r.origin.y ≤ p.y) && decide (p.y < r.lower_right.y)

/-- Modelled from the spec: `PFGLDeviceClear` (only declared in the header;
its body is not in the repository).  The spec: the Clear call honors the
ClearParams bit flags so unset fields never perturb framebuffer state; the
color/depth/stencil aspects are overwritten only when their flag bit is
set, and the clear is restricted to `rect` only when the rect bit is set. -/
def pfGLDeviceClear (fb : Framebuffer) (params : PFClearParams) : Framebuffer :=
  fun pt =>
    let affected := !hasFlag params.flags PF_CLEAR_FLAGS_HAS_RECT ||
      inRectI params.rect pt
    if affected then
      { color := if hasFlag params.flags PF_CLEAR_FLAGS_HAS_COLOR then
          params.color else (fb pt).color
        depth := if hasFlag params.flags PF_CLEAR_FLAGS_HAS_DEPTH then
          params.depth else (fb pt).depth
        stencil := if hasFlag params.flags PF_CLEAR_FLAGS_HAS_STENCIL then
          params.stencil else (fb pt).stencil }
    else fb pt

/-! ## Path data model (spec §3, header section `canvas`) -/

/-- A path segment: tagged variant Line / Quadratic / Cubic (spec §3). -/
inductive Segment
  | line (dest : PFVector2F)
  | quadratic (ctrl dest : PFVector2F)
  | cubic (ctrl0 ctrl1 dest : PFVector2F)
deriving DecidableEq, Repr

/-- A subpath: ordered segments plus a start point and a closed flag
(spec §3). -/
structure Subpath where
  start : PFVector2F
  segments : List Segment
  closed : Bool
deriving DecidableEq, Repr

/-- `PFPath` contents: an ordered sequence of subpaths (spec §3). -/
structure PFPath where
  subpaths : List Subpath
deriving DecidableEq, Repr

/-- The empty path, as produced by `PFPathCreate`. -/
def PFPath.empty : PFPath := ⟨[]⟩

/-- Whether the builder has an open (not yet closed) subpath: the last
subpath exists and is not marked closed. -/
def PFPath.hasOpenSubpath (p : PFPath) : Bool :=
  match p.subpaths.getLast? with
  | some sp => !sp.closed
  | none => false

/-- Apply `f` to the last element of a list, if any. -/
def modifyLast {α : Type} (f : α → α) : List α → List α
  | [] => []
  | [a] => [f a]
  | a :: b :: rest => a :: modifyLast f (b :: rest)

/-- Modelled from the spec: `PFPathMoveTo` (header declares it only).
`MoveTo(p)` starts a new subpath at `p` (spec §4.1). -/
def pfPathMoveTo (p : PFPath) (dest : PFVector2F) : PFPath :=
  ⟨p.subpaths ++ [⟨dest, [], false⟩]⟩

/-- Modelled from the spec: the shared policy of the segment-appending
calls (`PFPathLineTo`, `PFPathQuadraticCurveTo`, `PFPathBezierCurveTo`,
declared only in the header).  The segment is appended to the current open
subpath; if no subpath is open, one is implicitly opened at the given
point first (spec §4.1). -/
def PFPath.appendSegment (p : PFPath) (openAt : PFVector2F) (seg : Segment) : PFPath :=
  if p.hasOpenSubpath then
    ⟨modifyLast (fun sp => { sp with segments := sp.segments ++ [seg] }) p.subpaths⟩
  else
    ⟨p.subpaths ++ [⟨openAt, [seg], false⟩]⟩

/-- Modelled from the spec: `PFPathLineTo`. -/
def pfPathLineTo (p : PFPath) (dest : PFVector2F) : PFPath :=
  p.appendSegment dest (.line dest)

/-- Modelled from the spec: `PFPathQuadraticCurveTo`. -/
def pfPathQuadraticCurveTo (p : PFPath) (ctrl dest : PFVector2F) : PFPath :=
  p.appendSegment dest (.quadratic ctrl dest)

/-- Modelled from the spec: `PFPathBezierCurveTo`. -/
def pfPathBezierCurveTo (p : PFPath) (ctrl0 ctrl1 dest : PFVector2F) : PFPath :=
  p.appendSegment dest (.cubic ctrl0 ctrl1 dest)

/-- Modelled from the spec: `PFPathClosePath` (header declares it only).
With an open subpath it appends an implicit line back to the subpath's
start and marks it closed; with no open subpath it is a no-op
(spec §4.1). -/
def pfPathClosePath (p : PFPath) : PFPath :=
  if p.hasOpenSubpath then
    ⟨modifyLast
      (fun sp => { sp with segments := sp.segments ++ [.line sp.start], closed := true })
      p.subpaths⟩
  else p

/-- One path-builder operation of the `PFPath*` mutation API. -/
inductive PathOp
  | moveTo (dest : PFVector2F)
  | lineTo (dest : PFVector2F)
  | quadraticCurveTo (ctrl dest : PFVector2F)
  | bezierCurveTo (ctrl0 ctrl1 dest : PFVector2F)
  | closePath
deriving DecidableEq, Repr

/-- Apply one builder operation to path contents. -/
def PFPath.applyOp (p : PFPath) : PathOp → PFPath
  | .moveTo dest => pfPathMoveTo p dest
  | .lineTo dest => pfPathLineTo p dest
  | .quadraticCurveTo ctrl dest => pfPathQuadraticCurveTo p ctrl dest
  | .bezierCurveTo ctrl0 ctrl1 dest => pfPathBezierCurveTo p ctrl0 ctrl1 dest
  | .closePath => pfPathClosePath p

/-- Apply a sequence of builder operations. -/
def PFPath.applyOps (p : PFPath) (ops : List PathOp) : PFPath :=
  ops.foldl PFPath.applyOp p

/-! ## Opaque-handle store for paths

The C API hands out `PFPathRef` handles; spec §9 maps this to arena-owned
values with stable indices.  A store is the arena; a handle is an index. -/

/-- The arena of live path values; a `PFPathRef` is an index into it. -/
structure PathStore where
  slots : List PFPath
deriving DecidableEq, Repr

/-- Dereference a handle (out-of-range handles see the empty path). -/
def PathStore.get (st : PathStore) (r : Nat) : PFPath :=
  st.slots.getD r PFPath.empty

/-- Modelled from the spec: `PFPathCreate` — allocate a fresh empty path
and return its handle. -/
def pfPathCreate (st : PathStore) : PathStore × Nat :=
  (⟨st.slots ++ [PFPath.empty]⟩, st.slots.length)

/-- Modelled from the spec: `PFPathClone` (header declares it only) — a
deep, independent copy: a fresh slot holding a copy of the contents of
the source slot (spec §4.1). -/
def pfPathClone (st : PathStore) (r : Nat) : PathStore × Nat :=
  (⟨st.slots ++ [st.get r]⟩, st.slots.length)

/-- Apply one mutation through a handle: only the addressed slot changes. -/
def PathStore.mutate (st : PathStore) (r : Nat) (op : PathOp) : PathStore :=
  ⟨st.slots.set r ((st.get r).applyOp op)⟩

/-- Apply a sequence of mutations through a handle. -/
def PathStore.mutateSeq (st : PathStore) (r : Nat) (ops : List PathOp) : PathStore :=
  ops.foldl (fun s op => s.mutate r op) st

/-- The clone scenario of spec §8: create a fresh path in `st0`, apply a
sequence of builder operations through its handle, then clone it.
Returns the resulting store, the original handle and the clone handle. -/
def cloneScenario (st0 : PathStore) (ops : List PathOp) : PathStore × Nat × Nat :=
  let c := pfPathCreate st0
  let st1 := c.1.mutateSeq c.2 ops
  let cl := pfPathClone st1 c.2
  (cl.1, c.2, cl.2)

/-! ## Scene data model (spec §3) -/

/-- Style: stroke/fill attributes — line width (default 1.0) and line cap
(`PF_LINE_CAP_*`, default butt); the paint is out of scope (spec §3). -/
structure Style where
  lineWidth : ℚ
  lineCap : Nat
deriving DecidableEq, Repr

/-- The default style: line width 1.0, butt cap. -/
def Style.default : Style := ⟨1, 0⟩

/-- A draw command's operation: fill or stroke (spec §3). -/
inductive DrawOp
  | fill
  | stroke
deriving DecidableEq, Repr

/-- DrawCommand: path by value, style, operation (spec §3). -/
structure DrawCommand where
  path : PFPath
  style : Style
  op : DrawOp
deriving DecidableEq, Repr

/-- A fallback command for out-of-range indexing in the scheduler model. -/
def DrawCommand.default : DrawCommand := ⟨PFPath.empty, Style.default, .fill⟩

/-- A Scene: an ordered sequence of DrawCommands (spec §3). -/
structure Scene where
  commands : List DrawCommand
deriving DecidableEq, Repr

/-! ## Tessellation (spec §4.3)

The tessellator converts one DrawCommand into flattened primitives; its
implementation is not in the repository, so it is modelled from the spec:
a pure, deterministic function of the Path and Style alone. -/

/-- A flattened triangle. -/
structure Triangle where
  a : PFVector2F
  b : PFVector2F
  c : PFVector2F
deriving DecidableEq, Repr

/-- A Primitive batch: flattened triangles tagged with the originating
draw-command index for ordering (spec §3). -/
structure Primitive where
  cmdIndex : Nat
  triangles : List Triangle
deriving DecidableEq, Repr

/-- A tessellation failure (spec §7(b): degenerate geometry detected
during flattening). -/
inductive TessError
  | degenerate
deriving DecidableEq, Repr

/-- Midpoint of two points. -/
def midpoint (p q : PFVector2F) : PFVector2F :=
  ⟨(p.x + q.x) / 2, (p.y + q.y) / 2⟩

/-- The endpoint a segment moves the pen to. -/
def Segment.endpoint : Segment → PFVector2F
  | .line dest => dest
  | .quadratic _ dest => dest
  | .cubic _ _ dest => dest

/-- Modelled from the spec: flattening of one segment from current point
`cur` into a polyline within a fixed tolerance (spec §4.3; the subdivision
depth is an implementation choice — one de Casteljau split here). -/
def flattenSegment (cur : PFVector2F) : Segment → List PFVector2F
  | .line dest => [dest]
  | .quadratic ctrl dest =>
    [midpoint (midpoint cur ctrl) (midpoint ctrl dest), dest]
  | .cubic ctrl0 ctrl1 dest =>
    let m01 := midpoint cur ctrl0
    let m12 := midpoint ctrl0 ctrl1
    let m23 := midpoint ctrl1 dest
    [midpoint (midpoint m01 m12) (midpoint m12 m23), dest]

/-- Flatten a list of segments starting at `cur` into a polyline. -/
def flattenSegments (cur : PFVector2F) : List Segment → List PFVector2F
  | [] => []
  | seg :: rest => flattenSegment cur seg ++ flattenSegments seg.endpoint rest

/-- The polyline of a subpath: its start point followed by the flattened
segment points. -/
def subpathPolyline (sp : Subpath) : List PFVector2F :=
  sp.start :: flattenSegments sp.start sp.segments

/-- Fan-triangulate a polyline (fill tessellation into a triangulated
coverage representation, spec §4.3). -/
def fanTriangles : List PFVector2F → List Triangle
  | p0 :: p1 :: p2 :: rest => ⟨p0, p1, p2⟩ :: fanTriangles (p0 :: p2 :: rest)
  | _ => []

/-- Perpendicular offset used by the modelled stroke expansion (a fixed
half-width offset of the edge direction; the true normalization is an
implementation detail out of rational arithmetic's reach, and no claim
depends on it). -/
def strokeOffset (w : ℚ) (p q : PFVector2F) : PFVector2F :=
  ⟨-(q.y - p.y) * (w / 2), (q.x - p.x) * (w / 2)⟩

/-- Quad (two triangles) for one stroked edge. -/
def strokeEdge (w : ℚ) (p q : PFVector2F) : List Triangle :=
  let d := strokeOffset w p q
  [⟨⟨p.x + d.x, p.y + d.y⟩, ⟨q.x + d.x, q.y + d.y⟩, ⟨q.x - d.x, q.y - d.y⟩⟩,
   ⟨⟨p.x + d.x, p.y + d.y⟩, ⟨q.x - d.x, q.y - d.y⟩, ⟨p.x - d.x, p.y - d.y⟩⟩]

/-- Stroke-expand a polyline edge by edge. -/
def strokePolyline (w : ℚ) : List PFVector2F → List Triangle
  | p :: q :: rest => strokeEdge w p q ++ strokePolyline w (q :: rest)
  | _ => []

/-- Modelled from the spec: the tessellator core (not in the repository).
Curves are flattened to polylines within tolerance; fills are fan-
triangulated, strokes are expanded honoring line width (spec §4.3).  A
non-positive stroke width is degenerate geometry and fails the job
(spec §7(b)). -/
def tessellate (cmd : DrawCommand) : Except TessError (List Triangle) :=
  match cmd.op with
  | .fill =>
    .ok (cmd.path.subpaths.flatMap (fun sp => fanTriangles (subpathPolyline sp)))
  | .stroke =>
    if cmd.style.lineWidth ≤ 0 then .error .degenerate
    else .ok (cmd.path.subpaths.flatMap
      (fun sp => strokePolyline cmd.style.lineWidth (subpathPolyline sp)))

/-- One tessellation job: tessellate one DrawCommand and tag the batch
with the command's original index (spec §4.3/§4.4 step 2). -/
def tessellateJob (idx : Nat) (cmd : DrawCommand) : Except TessError Primitive :=
  (tessellate cmd).map (fun ts => ⟨idx, ts⟩)

/-! ## SceneProxy build: parallel jobs, join, ordered merge (spec §4.4)

Jobs run to completion independently and each writes its own output slot;
a schedule is the order in which jobs complete.  `BuildAndRender` joins on
all jobs, then merges slot contents in original DrawCommand order. -/

/-- The per-build output slots: draw-command index to completed job
result, `none` while the job has not completed. -/
def Slots : Type := Nat → Option (Except TessError Primitive)

/-- No job has completed yet. -/
def Slots.empty : Slots := fun _ => none

/-- One job completion: job `i` reads only its own DrawCommand and writes
only its own slot (spec §4.4 step 2). -/
def scheduleStep (cmds : List DrawCommand) (slots : Slots) (i : Nat) : Slots :=
  fun j =>
    if j = i then some (tessellateJob i (cmds.getD i DrawCommand.default))
    else slots j

/-- Modelled from the spec: run jobs under a completion schedule `order`
(the order in which jobs finish). -/
def runSchedule (cmds : List DrawCommand) (order : List Nat) : Slots :=
  order.foldl (scheduleStep cmds) Slots.empty

/-- Modelled from the spec: the merge step — read the slots in original
draw-command index order, failing the whole build on the first failed job
(spec §4.4 steps 3-4; after the join every slot of this build is filled,
so an unfilled slot also fails the build rather than merging partially). -/
def mergeFrom (slots : Slots) (i : Nat) : List DrawCommand → Except TessError (List Primitive)
  | [] => .ok []
  | _ :: rest =>
    match (slots i).getD (.error .degenerate) with
    | .error e => .error e
    | .ok p =>
      match mergeFrom slots (i + 1) rest with
      | .error e => .error e
      | .ok ps => .ok (p :: ps)

/-- Modelled from the spec: the whole parallel build of a Scene under a
completion schedule `order`: run all jobs, join, merge in source order. -/
def buildScene (scene : Scene) (order : List Nat) : Except TessError (List Primitive) :=
  mergeFrom (runSchedule scene.commands order) 0 scene.commands

/-- Sequential tessellation of the commands in source order — the
reference the spec compares the parallel build against (spec §4.4). -/
def tessellateSeq (i : Nat) : List DrawCommand → Except TessError (List Primitive)
  | [] => .ok []
  | cmd :: rest =>
    match tessellateJob i cmd with
    | .error e => .error e
    | .ok p =>
      match tessellateSeq (i + 1) rest with
      | .error e => .error e
      | .ok ps => .ok (p :: ps)

/-- Sequential build of a whole scene in source order. -/
def sequentialBuild (scene : Scene) : Except TessError (List Primitive) :=
  tessellateSeq 0 scene.commands

/-- A GPU submission call issued by the Renderer. -/
inductive RenderCall
  | draw (p : Primitive)
deriving DecidableEq, Repr

/-- Modelled from the spec: the Renderer issues one draw call per
Primitive batch in the order produced by the merge step (spec §4.5). -/
def renderPrimitives (ps : List Primitive) : List RenderCall :=
  ps.map .draw

/-- `struct PFRenderOptions { uint32_t placeholder; }` from the header. -/
structure PFRenderOptions where
  placeholder : Nat
deriving DecidableEq, Repr

/-- Modelled from the spec: `PFSceneProxyBuildAndRenderGL` (declared only
in the header).  Build the proxy's scene under the given completion
schedule and hand the merged buffer to the renderer; on any job failure
the build aborts with a structured error and nothing is rendered
(spec §4.4).  The options struct is the header's placeholder-only
`PFRenderOptions`. -/
def pfSceneProxyBuildAndRenderGL (scene : Scene) (order : List Nat)
    (opts : PFRenderOptions) : Except TessError (List RenderCall) :=
  (buildScene scene order).map renderPrimitives

/-- Modelled from the spec: execution of one tessellation job on a worker
of the pool.  A job is side-effect-free and reads only its own input
(spec §4.3/§9), so the executing worker's identity and the completion
time are mere execution context. -/
def runJobOnWorker (worker : Nat) (time : Nat) (idx : Nat) (cmd : DrawCommand) :
    Except TessError Primitive :=
  tessellateJob idx cmd

/-! ## Concrete scenes used by witnesses -/

/-- A small closed triangular path. -/
def triPath : PFPath :=
  ⟨[⟨⟨0, 0⟩, [.line ⟨10, 0⟩, .line ⟨10, 10⟩, .line ⟨0, 0⟩], true⟩]⟩

/-- Three fill commands A, B, C over translated copies of the triangle
(the scenario of spec §8). -/
def sceneABC : Scene :=
  ⟨[⟨triPath, Style.default, .fill⟩,
    ⟨⟨[⟨⟨20, 0⟩, [.line ⟨30, 0⟩, .line ⟨30, 10⟩, .line ⟨20, 0⟩], true⟩]⟩, Style.default, .fill⟩,
    ⟨⟨[⟨⟨40, 0⟩, [.line ⟨50, 0⟩, .line ⟨50, 10⟩, .line ⟨40, 0⟩], true⟩]⟩, Style.default, .fill⟩]⟩

/-- A command whose tessellation job fails: a stroke with degenerate
(zero) line width. -/
def badStrokeCmd : DrawCommand :=
  ⟨⟨[⟨⟨0, 0⟩, [.line ⟨1, 0⟩], false⟩]⟩, ⟨0, 0⟩, .stroke⟩

/-- A scene containing a failing job. -/
def sceneBad : Scene := ⟨[badStrokeCmd]⟩

/-! ## SceneProxy build exclusivity (spec §4.4/§5) -/

/-- Whether a SceneProxy currently has a build in flight. -/
inductive ProxyStatus
  | idle
  | building
deriving DecidableEq, Repr

/-- Observable build events on one SceneProxy: a `BuildAndRender` call
beginning, and a build completing. -/
inductive ProxyEvent
  | beginBuild
  | endBuild
deriving DecidableEq, Repr

/-- Modelled from the spec: the serialization discipline of a single
SceneProxy (spec §4.4: a new `BuildAndRender` on the same instance must
not begin while a prior one is in flight — it is rejected as a
programming error, `none` here).  A build completes only while one is in
flight. -/
def proxyStep : ProxyStatus → ProxyEvent → Option ProxyStatus
  | .idle, .beginBuild => some .building
  | .building, .beginBuild => none
  | .building, .endBuild => some .idle
  | .idle, .endBuild => none

/-- Run a trace of build events from a status; `none` means some event
was rejected. -/
def proxyRun (s : ProxyStatus) : List ProxyEvent → Option ProxyStatus
  | [] => some s
  | e :: rest =>
    match proxyStep s e with
    | some s' => proxyRun s' rest
    | none => none

/-- How many builds a status has in flight. -/
def ProxyStatus.inFlight : ProxyStatus → Nat
  | .idle => 0
  | .building => 1

/-! ## GL device / renderer handles (header section `gl`) -/

/-- `PFGLDeviceCreate(version, default_framebuffer)`: a device wraps a GL
version (`PF_GL_VERSION_*`) and a default framebuffer id. -/
structure GLDevice where
  version : Nat
  defaultFramebuffer : Nat
deriving DecidableEq, Repr

/-- A device arena slot: the device value plus whether the creating
caller still owns it (a Renderer only ever borrows, spec §4.5). -/
structure DeviceSlot where
  device : GLDevice
  ownedByCaller : Bool
deriving DecidableEq, Repr

/-- `PFGLRenderer` state: the borrowed device handle, the resource loader
handle and the destination framebuffer handle passed to
`PFGLRendererCreate`. -/
structure GLRenderer where
  device : Nat
  resources : Nat
  destFramebuffer : Nat
deriving DecidableEq, Repr

/-- The arena of live GL objects; handles are indices. -/
structure GLState where
  devices : List DeviceSlot
  renderers : List GLRenderer
deriving DecidableEq, Repr

/-- A fallback renderer value for out-of-range handles. -/
def GLRenderer.default : GLRenderer := ⟨0, 0, 0⟩

/-- Dereference a renderer handle. -/
def GLState.getRenderer (st : GLState) (r : Nat) : GLRenderer :=
  st.renderers.getD r GLRenderer.default

/-- Modelled from the spec: `PFGLRendererCreate` (declared only in the
header).  The renderer records — borrows — the device handle; ownership
of the device stays with the caller (spec §4.5: Renderer borrows Device,
never takes ownership). -/
def pfGLRendererCreate (st : GLState) (device resources destFramebuffer : Nat) :
    GLState × Nat :=
  ({ st with renderers := st.renderers ++ [⟨device, resources, destFramebuffer⟩] },
   st.renderers.length)

/-- Modelled from the spec and the header's doc comment ("Returns a
borrowed reference to the device"): `PFGLRendererGetDevice` returns the
renderer's device handle and mutates nothing. -/
def pfGLRendererGetDevice (st : GLState) (r : Nat) : GLState × Nat :=
  (st, (st.getRenderer r).device)

/-! # Theorems -/

/-- C5: The ClearParams flags bitmask assigns bit0 to color validity,
bit1 to depth validity, bit2 to stencil validity and bit3 to rect
validity, matching the exported flag constants (0x1, 0x2, 0x4, 0x8
respectively). -/
theorem clearFlags_bit_assignment :
    PF_CLEAR_FLAGS_HAS_COLOR = 0x1 ∧ PF_CLEAR_FLAGS_HAS_DEPTH = 0x2 ∧
    PF_CLEAR_FLAGS_HAS_STENCIL = 0x4 ∧ PF_CLEAR_FLAGS_HAS_RECT = 0x8 ∧
    ∀ flags < 256,
      hasFlag flags PF_CLEAR_FLAGS_HAS_COLOR = flags.testBit 0 ∧
      hasFlag flags PF_CLEAR_FLAGS_HAS_DEPTH = flags.testBit 1 ∧
      hasFlag flags PF_CLEAR_FLAGS_HAS_STENCIL = flags.testBit 2 ∧
      hasFlag flags PF_CLEAR_FLAGS_HAS_RECT = flags.testBit 3 := by
  refine ⟨rfl, rfl, rfl, rfl, ?_⟩
  set_option maxRecDepth 4096 in decide

/-- Witness for C5 at the concrete mask 5 (color and stencil bits set). -/
theorem clearFlags_bit_assignment_witness :
    hasFlag 5 PF_CLEAR_FLAGS_HAS_COLOR = Nat.testBit 5 0 :=
  (clearFlags_bit_assignment.2.2.2.2 5 (by decide)).1

/-- C4: Clear leaves every framebuffer aspect whose flag bit is unset
unchanged, the corresponding field value is irrelevant (arbitrary values
have no effect), and with flags = 0 the framebuffer is entirely
unchanged. -/
theorem clear_respects_unset_flags (fb : Framebuffer) (params : PFClearParams) :
    (hasFlag params.flags PF_CLEAR_FLAGS_HAS_COLOR = false →
      (∀ pt, (pfGLDeviceClear fb params pt).color = (fb pt).color) ∧
      ∀ c, pfGLDeviceClear fb { params with color := c } = pfGLDeviceClear fb params) ∧
    (hasFlag params.flags PF_CLEAR_FLAGS_HAS_DEPTH = false →
      (∀ pt, (pfGLDeviceClear fb params pt).depth = (fb pt).depth) ∧
      ∀ d, pfGLDeviceClear fb { params with depth := d } = pfGLDeviceClear fb params) ∧
    (hasFlag params.flags PF_CLEAR_FLAGS_HAS_STENCIL = false →
      (∀ pt, (pfGLDeviceClear fb params pt).stencil = (fb pt).stencil) ∧
      ∀ s, pfGLDeviceClear fb { params with stencil := s } = pfGLDeviceClear fb params) ∧
    (hasFlag params.flags PF_CLEAR_FLAGS_HAS_RECT = false →
      ∀ r, pfGLDeviceClear fb { params with rect := r } = pfGLDeviceClear fb params) ∧
    (params.flags = 0 → pfGLDeviceClear fb params = fb) := by
  refine ⟨?_, ?_, ?_, ?_, ?_⟩
  · intro h
    constructor
    · intro pt
      simp only [pfGLDeviceClear, h]
      split <;> simp
    · intro c
      funext pt
      simp [pfGLDeviceClear, h]
  · intro h
    constructor
    · intro pt
      simp only [pfGLDeviceClear, h]
      split <;> simp
    · intro d
      funext pt
      simp [pfGLDeviceClear, h]
  · intro h
    constructor
    · intro pt
      simp only [pfGLDeviceClear, h]
      split <;> simp
    · intro s
      funext pt
      simp [pfGLDeviceClear, h]
  · intro h
    intro r
    funext pt
    simp [pfGLDeviceClear, h]
  · intro h
    funext pt
    simp [pfGLDeviceClear, hasFlag, h]

/-- Witness for C4: a Clear with flags = 0 but junk color, depth, stencil
and rect fields leaves a concrete framebuffer unchanged. -/
theorem clear_respects_unset_flags_witness :
    pfGLDeviceClear (fun _ => ⟨⟨0, 0, 0, 0⟩, 0, 0⟩)
        ⟨⟨1, 2, 3, 4⟩, 5, 6, ⟨⟨-7, -7⟩, ⟨7, 7⟩⟩, 0⟩ =
      (fun _ => ⟨⟨0, 0, 0, 0⟩, 0, 0⟩) :=
  (clear_respects_unset_flags (fun _ => ⟨⟨0, 0, 0, 0⟩, 0, 0⟩)
    ⟨⟨1, 2, 3, 4⟩, 5, 6, ⟨⟨-7, -7⟩, ⟨7, 7⟩⟩, 0⟩).2.2.2.2 rfl

/-- C2: tessellating the same immutable Path and Style twice — on any two
workers, at any two times — yields identical Primitive output; both
executions equal the pure tessellation job of that command. -/
theorem tessellation_deterministic (w1 t1 w2 t2 idx : Nat) (cmd : DrawCommand) :
    runJobOnWorker w1 t1 idx cmd = runJobOnWorker w2 t2 idx cmd ∧
    runJobOnWorker w1 t1 idx cmd = tessellateJob idx cmd :=
  ⟨rfl, rfl⟩

/-- C10: PFRenderOptions is determined by its single placeholder field,
and BuildAndRender output does not depend on the options value. -/
theorem renderOptions_placeholder_only (scene : Scene) (order : List Nat)
    (o1 o2 : PFRenderOptions) :
    (∀ a b : PFRenderOptions, a.placeholder = b.placeholder → a = b) ∧
    pfSceneProxyBuildAndRenderGL scene order o1 =
      pfSceneProxyBuildAndRenderGL scene order o2 := by
  constructor
  · intro a b h
    cases a
    cases b
    simpa using h
  · rfl

/-- Witness for C10 at a concrete scene and two distinct options
values. -/
theorem renderOptions_placeholder_only_witness :
    pfSceneProxyBuildAndRenderGL ⟨[]⟩ [] ⟨0⟩ =
      pfSceneProxyBuildAndRenderGL ⟨[]⟩ [] ⟨1⟩ :=
  (renderOptions_placeholder_only ⟨[]⟩ [] ⟨0⟩ ⟨1⟩).2

/-- C9: a renderer created from a device hands back that same device
handle through `PFGLRendererGetDevice`; the call mutates nothing, and
renderer creation does not transfer device ownership (the device arena,
ownership flags included, is untouched). -/
theorem rendererGetDevice_borrowed (st : GLState) (dev res dfb : Nat) :
    (pfGLRendererGetDevice (pfGLRendererCreate st dev res dfb).1
        (pfGLRendererCreate st dev res dfb).2).2 = dev ∧
    (pfGLRendererGetDevice (pfGLRendererCreate st dev res dfb).1
        (pfGLRendererCreate st dev res dfb).2).1 =
      (pfGLRendererCreate st dev res dfb).1 ∧
    (pfGLRendererCreate st dev res dfb).1.devices = st.devices := by
  refine ⟨?_, rfl, rfl⟩
  simp [pfGLRendererCreate, pfGLRendererGetDevice, GLState.getRenderer,
    List.getD_eq_getElem?_getD, List.getElem?_concat_length]

/-! ### Helper lemmas: modifyLast and the path store -/

/-- `modifyLast` rewrites exactly the last element. -/
theorem modifyLast_concat {α : Type} (f : α → α) (pre : List α) (a : α) :
    modifyLast f (pre ++ [a]) = pre ++ [f a] := by
  induction pre with
  | nil => rfl
  | cons x xs ih =>
    cases xs with
    | nil => rfl
    | cons y ys =>
      show x :: modifyLast f ((y :: ys) ++ [a]) = x :: ((y :: ys) ++ [f a])
      rw [ih]

/-- Mutation through a handle preserves the arena size. -/
theorem PathStore.length_mutate (st : PathStore) (a : Nat) (op : PathOp) :
    (st.mutate a op).slots.length = st.slots.length := by
  unfold PathStore.mutate
  simp

/-- Mutation sequences preserve the arena size. -/
theorem PathStore.length_mutateSeq (st : PathStore) (a : Nat) (ops : List PathOp) :
    (st.mutateSeq a ops).slots.length = st.slots.length := by
  induction ops generalizing st with
  | nil => rfl
  | cons op rest ih =>
    show ((st.mutate a op).mutateSeq a rest).slots.length = st.slots.length
    rw [ih, PathStore.length_mutate]

/-- Mutating one handle leaves every other handle's contents unchanged. -/
theorem PathStore.get_mutate_ne (st : PathStore) (a b : Nat) (op : PathOp)
    (h : b ≠ a) : (st.mutate a op).get b = st.get b := by
  unfold PathStore.mutate PathStore.get
  simp [List.getD_eq_getElem?_getD, List.getElem?_set_ne (Ne.symm h)]

/-- A mutation sequence on one handle leaves every other handle's
contents unchanged. -/
theorem PathStore.get_mutateSeq_ne (st : PathStore) (a b : Nat) (ops : List PathOp)
    (h : b ≠ a) : (st.mutateSeq a ops).get b = st.get b := by
  induction ops generalizing st with
  | nil => rfl
  | cons op rest ih =>
    show ((st.mutate a op).mutateSeq a rest).get b = st.get b
    rw [ih, PathStore.get_mutate_ne st a b op h]

/-- Appending a fresh slot does not change existing handles. -/
theorem PathStore.get_concat_left (st : PathStore) (p : PFPath) (b : Nat)
    (hb : b < st.slots.length) :
    (PathStore.mk (st.slots ++ [p])).get b = st.get b := by
  unfold PathStore.get
  exact List.getD_append _ _ _ _ hb

/-- The freshly appended slot holds the appended value. -/
theorem PathStore.get_concat_length (st : PathStore) (p : PFPath) :
    (PathStore.mk (st.slots ++ [p])).get st.slots.length = p := by
  unfold PathStore.get
  simp [List.getD_eq_getElem?_getD, List.getElem?_concat_length]

/-- General clone independence: for a valid handle `r`, the clone's slot
holds the same contents, and mutation sequences through either handle
leave the other handle's contents unchanged. -/
theorem pfPathClone_independent (st1 : PathStore) (r : Nat) (more : List PathOp)
    (hr : r < st1.slots.length) :
    ((pfPathClone st1 r).1.get (pfPathClone st1 r).2 = (pfPathClone st1 r).1.get r) ∧
    (((pfPathClone st1 r).1.mutateSeq (pfPathClone st1 r).2 more).get r =
      (pfPathClone st1 r).1.get r) ∧
    (((pfPathClone st1 r).1.mutateSeq r more).get (pfPathClone st1 r).2 =
      (pfPathClone st1 r).1.get (pfPathClone st1 r).2) := by
  have e1 : (pfPathClone st1 r).1 = PathStore.mk (st1.slots ++ [st1.get r]) := rfl
  have e2 : (pfPathClone st1 r).2 = st1.slots.length := rfl
  rw [e1, e2]
  refine ⟨?_, ?_, ?_⟩
  · rw [PathStore.get_concat_length, PathStore.get_concat_left _ _ _ hr]
  · rw [PathStore.get_mutateSeq_ne _ _ _ _ (by omega)]
  · rw [PathStore.get_mutateSeq_ne _ _ _ _ (by omega)]

/-- C6: after building a path by an arbitrary operation sequence and
cloning it, the clone's subpath/segment contents equal the original's,
and any further mutation sequence applied through either handle leaves
the other handle's contents unchanged (deep, independent copy). -/
theorem pathClone_deep_independent (st0 : PathStore) (ops more : List PathOp) :
    ((cloneScenario st0 ops).1.get (cloneScenario st0 ops).2.2 =
      (cloneScenario st0 ops).1.get (cloneScenario st0 ops).2.1) ∧
    (((cloneScenario st0 ops).1.mutateSeq (cloneScenario st0 ops).2.2 more).get
        (cloneScenario st0 ops).2.1 =
      (cloneScenario st0 ops).1.get (cloneScenario st0 ops).2.1) ∧
    (((cloneScenario st0 ops).1.mutateSeq (cloneScenario st0 ops).2.1 more).get
        (cloneScenario st0 ops).2.2 =
      (cloneScenario st0 ops).1.get (cloneScenario st0 ops).2.2) := by
  have hr : st0.slots.length <
      ((PathStore.mk (st0.slots ++ [PFPath.empty])).mutateSeq st0.slots.length ops).slots.length := by
    rw [PathStore.length_mutateSeq]
    simp
  exact pfPathClone_independent _ st0.slots.length more hr

/-- Witness for C6: a two-segment path cloned, then the clone closed;
the original handle's contents are untouched. -/
theorem pathClone_deep_independent_witness :
    ((cloneScenario ⟨[]⟩ [PathOp.moveTo ⟨0, 0⟩, PathOp.lineTo ⟨1, 0⟩]).1.mutateSeq
        (cloneScenario ⟨[]⟩ [PathOp.moveTo ⟨0, 0⟩, PathOp.lineTo ⟨1, 0⟩]).2.2
        [PathOp.closePath]).get
      (cloneScenario ⟨[]⟩ [PathOp.moveTo ⟨0, 0⟩, PathOp.lineTo ⟨1, 0⟩]).2.1 =
    (cloneScenario ⟨[]⟩ [PathOp.moveTo ⟨0, 0⟩, PathOp.lineTo ⟨1, 0⟩]).1.get
      (cloneScenario ⟨[]⟩ [PathOp.moveTo ⟨0, 0⟩, PathOp.lineTo ⟨1, 0⟩]).2.1 :=
  (pathClone_deep_independent ⟨[]⟩ [PathOp.moveTo ⟨0, 0⟩, PathOp.lineTo ⟨1, 0⟩]
    [PathOp.closePath]).2.1

/-- C7: ClosePath with an open subpath (the last subpath, not yet
closed) appends an implicit line back to that subpath's start and marks
it closed, leaving all other subpaths unchanged; with no open subpath it
is a no-op that leaves the path unchanged. -/
theorem closePath_spec (p : PFPath) :
    (∀ pre sp, p.subpaths = pre ++ [sp] → sp.closed = false →
      (pfPathClosePath p).subpaths =
        pre ++ [{ sp with segments := sp.segments ++ [.line sp.start], closed := true }]) ∧
    (p.hasOpenSubpath = false → pfPathClosePath p = p) := by
  constructor
  · intro pre sp hdec hopen
    have hlast : p.subpaths.getLast? = some sp := by
      rw [hdec]
      exact List.getLast?_concat _
    have hop : p.hasOpenSubpath = true := by
      unfold PFPath.hasOpenSubpath
      rw [hlast]
      simp [hopen]
    unfold pfPathClosePath
    rw [if_pos hop]
    simp only [hdec, modifyLast_concat]
  · intro h
    unfold pfPathClosePath
    rw [if_neg]
    simp [h]

/-- Witness for C7: closing a one-segment open subpath appends the
implicit closing line and sets the closed flag. -/
theorem closePath_spec_witness :
    (pfPathClosePath ⟨[⟨⟨0, 0⟩, [.line ⟨1, 1⟩], false⟩]⟩).subpaths =
      [⟨⟨0, 0⟩, [.line ⟨1, 1⟩, .line ⟨0, 0⟩], true⟩] :=
  (closePath_spec ⟨[⟨⟨0, 0⟩, [.line ⟨1, 1⟩], false⟩]⟩).1 []
    ⟨⟨0, 0⟩, [.line ⟨1, 1⟩], false⟩ rfl rfl

/-! ### Helper lemmas: scheduling, merge and sequential tessellation -/

/-- After a schedule runs, slot `j` is filled with the pure job result
for `j` exactly when `j` completed in the schedule; each completion
writes only its own slot. -/
theorem foldl_scheduleStep (cmds : List DrawCommand) (order : List Nat)
    (init : Slots) (j : Nat) :
    (order.foldl (scheduleStep cmds) init) j =
      if j ∈ order then some (tessellateJob j (cmds.getD j DrawCommand.default))
      else init j := by
  induction order generalizing init with
  | nil => simp
  | cons i rest ih =>
    simp only [List.foldl_cons]
    rw [ih]
    by_cases hj : j ∈ rest
    · simp [hj]
    · by_cases hji : j = i
      · subst hji
        simp [hj, scheduleStep]
      · simp [hj, hji, scheduleStep]

/-- The slots of a whole schedule run. -/
theorem runSchedule_eq (cmds : List DrawCommand) (order : List Nat) (j : Nat) :
    runSchedule cmds order j =
      if j ∈ order then some (tessellateJob j (cmds.getD j DrawCommand.default))
      else none := by
  unfold runSchedule
  rw [foldl_scheduleStep]
  rfl

/-- Merging from completely filled slots equals sequential
tessellation. -/
theorem mergeFrom_eq_tessellateSeq (slots : Slots) (cmds : List DrawCommand) (i : Nat)
    (hs : ∀ k, k < cmds.length →
      slots (i + k) = some (tessellateJob (i + k) (cmds.getD k DrawCommand.default))) :
    mergeFrom slots i cmds = tessellateSeq i cmds := by
  induction cmds generalizing i with
  | nil => rfl
  | cons c rest ih =>
    have h0 := hs 0 (by simp)
    rw [Nat.add_zero, List.getD_cons_zero] at h0
    have ihh : mergeFrom slots (i + 1) rest = tessellateSeq (i + 1) rest := by
      apply ih
      intro k hk
      have hk1 := hs (k + 1) (by simpa using Nat.succ_lt_succ hk)
      have e : i + (k + 1) = i + 1 + k := by omega
      rw [e] at hk1
      simpa using hk1
    unfold mergeFrom tessellateSeq
    rw [h0, ihh]
    rfl

/-- The parallel build under any complete schedule (a permutation of the
job index range) equals sequential tessellation in source order. -/
theorem buildScene_eq_sequentialBuild (scene : Scene) (order : List Nat)
    (h : order.Perm (List.range scene.commands.length)) :
    buildScene scene order = sequentialBuild scene := by
  unfold buildScene sequentialBuild
  apply mergeFrom_eq_tessellateSeq
  intro k hk
  rw [runSchedule_eq]
  have hmem : 0 + k ∈ order := by
    rw [h.mem_iff]
    simpa [List.mem_range] using hk
  rw [if_pos hmem]
  simp

/-- Successful sequential tessellation tags the output with consecutive
source indices. -/
theorem tessellateSeq_ok_indices (cmds : List DrawCommand) (i : Nat)
    (ps : List Primitive) (h : tessellateSeq i cmds = .ok ps) :
    ps.map Primitive.cmdIndex = List.range' i cmds.length := by
  induction cmds generalizing i ps with
  | nil =>
    unfold tessellateSeq at h
    cases h
    rfl
  | cons c rest ih =>
    unfold tessellateSeq at h
    cases hj : tessellateJob i c with
    | error e =>
      rw [hj] at h
      cases h
    | ok p =>
      rw [hj] at h
      cases hr : tessellateSeq (i + 1) rest with
      | error e =>
        rw [hr] at h
        cases h
      | ok ps' =>
        rw [hr] at h
        cases h
        have hp : p.cmdIndex = i := by
          unfold tessellateJob at hj
          cases ht : tessellate c with
          | error e =>
            rw [ht] at hj
            cases hj
          | ok ts =>
            rw [ht] at hj
            cases hj
            rfl
        simp [hp, ih _ _ hr, List.range']

/-- If any command in the list has a failing tessellation, sequential
tessellation of the whole list fails. -/
theorem tessellateSeq_error_of_fail (cmds : List DrawCommand) (i k : Nat) (e : TessError)
    (hk : k < cmds.length)
    (hfail : tessellate (cmds.getD k DrawCommand.default) = .error e) :
    ∃ e', tessellateSeq i cmds = .error e' := by
  induction cmds generalizing i k with
  | nil => simp at hk
  | cons c rest ih =>
    cases k with
    | zero =>
      rw [List.getD_cons_zero] at hfail
      have hj : tessellateJob i c = .error e := by
        unfold tessellateJob
        rw [hfail]
        rfl
      refine ⟨e, ?_⟩
      unfold tessellateSeq
      rw [hj]
    | succ k' =>
      obtain ⟨e', he'⟩ := ih (i + 1) k' (by simpa using hk) (by simpa using hfail)
      unfold tessellateSeq
      cases hj : tessellateJob i c with
      | error e2 => exact ⟨e2, rfl⟩
      | ok p =>
        rw [he']
        exact ⟨e', rfl⟩

/-- C1: the parallel build merges job outputs into a Primitive buffer in
original DrawCommand source order, independent of the job completion
schedule: under every complete schedule the output equals sequential
tessellation in source order, and a successful merged buffer is indexed
exactly 0,...,n-1 in order. -/
theorem buildScene_source_order (scene : Scene) (order : List Nat)
    (h : order.Perm (List.range scene.commands.length)) :
    buildScene scene order = sequentialBuild scene ∧
    ∀ ps, buildScene scene order = .ok ps →
      ps.map Primitive.cmdIndex = List.range scene.commands.length := by
  refine ⟨buildScene_eq_sequentialBuild scene order h, ?_⟩
  intro ps hps
  rw [buildScene_eq_sequentialBuild scene order h] at hps
  have hidx := tessellateSeq_ok_indices _ _ _ hps
  rw [List.range_eq_range']
  simpa using hidx

/-- Witness for C1: the three-command scene built under the reversed
completion schedule C, A, B still merges in source order A, B, C. -/
theorem buildScene_source_order_witness :
    buildScene sceneABC [2, 0, 1] = sequentialBuild sceneABC :=
  (buildScene_source_order sceneABC [2, 0, 1] (by decide)).1

/-- C3: if any tessellation job of the build fails, the whole build for
that frame aborts with a structured error: the build result is an error,
no merged Primitive buffer is produced, and BuildAndRender issues no
render calls. -/
theorem build_aborts_on_job_failure (scene : Scene) (order : List Nat)
    (opts : PFRenderOptions) (k : Nat) (e : TessError)
    (horder : order.Perm (List.range scene.commands.length))
    (hk : k < scene.commands.length)
    (hfail : tessellate (scene.commands.getD k DrawCommand.default) = .error e) :
    (∃ e', buildScene scene order = .error e') ∧
    (∀ ps, buildScene scene order ≠ .ok ps) ∧
    (∀ calls, pfSceneProxyBuildAndRenderGL scene order opts ≠ .ok calls) := by
  obtain ⟨e', he'⟩ := tessellateSeq_error_of_fail scene.commands 0 k e hk hfail
  have hb : buildScene scene order = .error e' := by
    rw [buildScene_eq_sequentialBuild scene order horder]
    exact he'
  refine ⟨⟨e', hb⟩, ?_, ?_⟩
  · intro ps hps
    rw [hb] at hps
    cases hps
  · intro calls hc
    unfold pfSceneProxyBuildAndRenderGL at hc
    rw [hb] at hc
    simp [Except.map] at hc

/-- Witness for C3: a one-command scene whose stroke job has degenerate
zero width aborts the whole build with an error. -/
theorem build_aborts_on_job_failure_witness :
    ∃ e', buildScene sceneBad [0] = .error e' :=
  (build_aborts_on_job_failure sceneBad [0] ⟨0⟩ 0 .degenerate
    (by decide) (by decide) rfl).1

/-! ### Helper lemmas: proxy build serialization -/

/-- Accepted runs decompose across trace concatenation. -/
theorem proxyRun_append (s : ProxyStatus) (l1 l2 : List ProxyEvent) :
    proxyRun s (l1 ++ l2) =
      match proxyRun s l1 with
      | some m => proxyRun m l2
      | none => none := by
  induction l1 generalizing s with
  | nil => rfl
  | cons e rest ih =>
    cases hs : proxyStep s e with
    | none =>
      simp only [List.cons_append, proxyRun, hs]
    | some m =>
      simp only [List.cons_append, proxyRun, hs]
      exact ih m

/-- Along an accepted run, begin events balance end events up to the
number of builds in flight at the two ends. -/
theorem proxyRun_count (tr : List ProxyEvent) (s s' : ProxyStatus)
    (h : proxyRun s tr = some s') :
    tr.count ProxyEvent.beginBuild + s.inFlight =
      tr.count ProxyEvent.endBuild + s'.inFlight := by
  induction tr generalizing s with
  | nil =>
    unfold proxyRun at h
    cases h
    rfl
  | cons e rest ih =>
    unfold proxyRun at h
    cases hs : proxyStep s e with
    | none =>
      rw [hs] at h
      cases h
    | some m =>
      rw [hs] at h
      have hrest := ih m h
      cases s <;> cases e
      · simp only [proxyStep, Option.some.injEq] at hs
        subst hs
        simp only [List.count_cons_self,
          List.count_cons_of_ne (by decide : ProxyEvent.endBuild ≠ ProxyEvent.beginBuild),
          ProxyStatus.inFlight] at hrest ⊢
        omega
      · simp only [proxyStep] at hs
        cases hs
      · simp only [proxyStep] at hs
        cases hs
      · simp only [proxyStep, Option.some.injEq] at hs
        subst hs
        simp only [List.count_cons_self,
          List.count_cons_of_ne (by decide : ProxyEvent.beginBuild ≠ ProxyEvent.endBuild),
          ProxyStatus.inFlight] at hrest ⊢
        omega

/-- C8: a SceneProxy serializes its own builds: a second BuildAndRender
issued while a build is in flight is rejected (the step relation refuses
it), and along every accepted event trace at most one build is ever in
flight, so two builds on the same instance never overlap and never
interleave internal merge state. -/
theorem proxy_serializes_builds (tr : List ProxyEvent) (s' : ProxyStatus)
    (h : proxyRun .idle tr = some s') :
    proxyStep .building .beginBuild = none ∧
    tr.count ProxyEvent.beginBuild = tr.count ProxyEvent.endBuild + s'.inFlight ∧
    ∀ pre suf, tr = pre ++ suf →
      pre.count ProxyEvent.beginBuild ≤ pre.count ProxyEvent.endBuild + 1 := by
  refine ⟨rfl, ?_, ?_⟩
  · have hc := proxyRun_count tr .idle s' h
    simpa [ProxyStatus.inFlight] using hc
  · intro pre suf hps
    subst hps
    rw [proxyRun_append] at h
    cases hp : proxyRun .idle pre with
    | none =>
      rw [hp] at h
      cases h
    | some m =>
      have hc := proxyRun_count pre .idle m hp
      cases m <;> simp [ProxyStatus.inFlight] at hc <;> omega

/-- Witness for C8: on the trace begin-end-begin the proxy accepts both
builds in sequence, and a begin while building is rejected. -/
theorem proxy_serializes_builds_witness :
    proxyStep .building .beginBuild = none :=
  (proxy_serializes_builds
    [ProxyEvent.beginBuild, ProxyEvent.endBuild, ProxyEvent.beginBuild]
    .building rfl).1

end Pathfinder
